import Mathlib

set_option maxRecDepth 8192

/-!
Verification development for the `uk-tax-assistant` chat client
(`src/App.jsx`).  The embedding below translates the job-lifecycle core of
the application into Lean:

* `Json`                — decoded JSON values (result of `response.json()`),
* `resolveResponseText` — the response normalizer,
* `parseMessage`        — the citation-marker content parser,
* `pollJobStatus`       — the job poller (status loop + placeholder replace),
* `handleSend`          — the submission entry point with its re-entrancy guard,
* `isError`             — the derived error predicate used by the renderer.

JavaScript strings are modelled as Lean `String`; the handful of string
methods the source uses (`trim`, `startsWith`, `split`, `match`) are given
char-list level models that follow the ECMAScript behaviour of each method.
Asynchronous fetches are modelled by an oracle `Nat → FetchResult` giving
the outcome of each successive status query, and the `while` loop of the
poller by fuel-indexed structural recursion (the loop condition bounds the
iteration count by `maxAttempts`, so fuel `maxAttempts` is exact).
-/

/-- Decoded JSON value, the type of `await response.json()` and of the
`response` field examined by the normalizer. -/
inductive Json where
  | null
  | bool (b : Bool)
  | num (n : Int)
  | str (s : String)
  | arr (elems : List Json)
  | obj (fields : List (String × Json))

/-- Property access `o[key]` on a decoded JSON object: first binding of the
key (decoded objects carry each key at most once). -/
def getField (fields : List (String × Json)) (key : String) : Option Json :=
  match fields with
  | [] => none
  | (k, v) :: rest => if k = key then some v else getField rest key

/-- JavaScript truthiness of a decoded JSON value, as tested by
`if (raw.text)`. -/
def jsTruthy : Json → Bool
  | Json.null => false
  | Json.bool b => b
  | Json.num n => n != 0
  | Json.str s => s != ""
  | Json.arr _ => true
  | Json.obj _ => true

/-- The value of `raw.text`: a property lookup yields `undefined` (here
`none`) on every non-object value, and on objects without the key. -/
def jsTextField : Json → Option Json
  | Json.obj fs => getField fs "text"
  | _ => none

/-- Lower-case hexadecimal digit, for the `\u00XX` escapes of
`JSON.stringify`. -/
def hexDigit (n : Nat) : Char :=
  if n < 10 then Char.ofNat (48 + n) else Char.ofNat (87 + n)

/-- Escaping of one character inside a JSON string literal, following
`JSON.stringify`. -/
def escapeChar (c : Char) : List Char :=
  if c = '"' then ['\\', '"']
  else if c = '\\' then ['\\', '\\']
  else if c = '\x08' then ['\\', 'b']
  else if c = '\x0c' then ['\\', 'f']
  else if c = '\n' then ['\\', 'n']
  else if c = '\r' then ['\\', 'r']
  else if c = '\t' then ['\\', 't']
  else if c.toNat < 32 then ['\\', 'u', '0', '0', hexDigit (c.toNat / 16), hexDigit (c.toNat % 16)]
  else [c]

/-- String literal serialization of `JSON.stringify`. -/
def quoteString (s : String) : String :=
  "\"" ++ String.mk ((s.toList.map escapeChar).flatten) ++ "\""

mutual

/-- Model of `JSON.stringify` on decoded JSON values (insertion key order,
as in the source's object literals). -/
def stringify : Json → String
  | Json.null => "null"
  | Json.bool true => "true"
  | Json.bool false => "false"
  | Json.num n => toString n
  | Json.str s => quoteString s
  | Json.arr xs => "[" ++ stringifyArr xs ++ "]"
  | Json.obj fs => "\x7b" ++ stringifyObj fs ++ "\x7d"

/-- Comma-separated serialization of array elements. -/
def stringifyArr : List Json → String
  | [] => ""
  | [x] => stringify x
  | x :: y :: rest => stringify x ++ "," ++ stringifyArr (y :: rest)

/-- Comma-separated serialization of object entries. -/
def stringifyObj : List (String × Json) → String
  | [] => ""
  | [(k, v)] => quoteString k ++ ":" ++ stringify v
  | (k, v) :: p :: rest => quoteString k ++ ":" ++ stringify v ++ "," ++ stringifyObj (p :: rest)

end

/-- Model of `String.prototype.trim`: strip leading and trailing
whitespace. -/
def trimString (s : String) : String :=
  String.mk (((s.toList.dropWhile Char.isWhitespace).reverse.dropWhile Char.isWhitespace).reverse)

/-- Model of `String.prototype.startsWith`. -/
def startsWithString (s pre : String) : Bool :=
  pre.toList.isPrefixOf s.toList

/-- The response normalizer `resolveResponseText` of `src/App.jsx`:

```js
const resolveResponseText = (raw) => {
  if (typeof raw === 'string') return raw;
  if (raw.text) return raw.text;
  return JSON.stringify(raw);
};
```

`Except.error` models a thrown `TypeError` (property access on `null`);
the returned value is the JavaScript value of the chosen branch, which the
source does not further coerce (a truthy `raw.text` is returned whatever
its type). -/
def resolveResponseText (raw : Json) : Except Unit Json :=
  match raw with
  | Json.str s => Except.ok (Json.str s)
  | Json.null => Except.error ()
  | _ =>
    match jsTextField raw with
    | some v => if jsTruthy v then Except.ok v else Except.ok (Json.str (stringify raw))
    | none => Except.ok (Json.str (stringify raw))

/-- Parsed unit of assistant message content: a plain text run or a
citation extracted from a `[source: ...]` marker. -/
inductive ContentSegment where
  | text (value : String)
  | citation (value : String)
deriving DecidableEq

/-- Character list of the literal marker opener `"[source:"`. -/
def sourceMarker : List Char := '[' :: 's' :: 'o' :: 'u' :: 'r' :: 'c' :: 'e' :: ':' :: []

/-- Scan for the closing `]` of a marker, as the lazy `.*?` of
`/\[source:(.*?)\]/` does: succeed at the first `]`, fail if a newline
(which `.` cannot match) or the end of input comes first.  Returns the
captured content and the remainder after the `]`. -/
def takeUntilRBrack : List Char → Option (List Char × List Char)
  | [] => none
  | c :: rest =>
    if c = ']' then some ([], rest)
    else if c = '\n' then none
    else
      match takeUntilRBrack rest with
      | some (content, r) => some (c :: content, r)
      | none => none

/-- Model of `text.split(/(\[source:.*?\])/g)` fused with the per-part
re-match `part.match(/\[source:(.*?)\]/)` of the source: the output
alternates plain parts (`Sum.inl`, possibly empty, as JavaScript `split`
with a capture group produces) and captured marker contents (`Sum.inr`).
The regex is scanned leftmost-first; at a position where `"[source:"` is
not followed by a `]` before a newline, no match starts and scanning moves
one character right — exactly the backtracking behaviour of the lazy
pattern.  Fuel-indexed: each step consumes at least one character, so fuel
`cs.length + 1` never runs out. -/
def splitParts (fuel : Nat) (acc : List Char) (cs : List Char) : List (Sum String String) :=
  match fuel with
  | 0 => [Sum.inl (String.mk acc.reverse)]
  | fuel' + 1 =>
    match cs with
    | [] => [Sum.inl (String.mk acc.reverse)]
    | c :: rest =>
      if sourceMarker.isPrefixOf cs then
        match takeUntilRBrack (cs.drop 8) with
        | some (content, after) =>
          Sum.inl (String.mk acc.reverse) :: Sum.inr (String.mk content) ::
            splitParts fuel' [] after
        | none => splitParts fuel' (c :: acc) rest
      else splitParts fuel' (c :: acc) rest

/-- The content parser `parseMessage` of `src/App.jsx`: split on the
citation-marker pattern keeping the matched spans, emit a `citation`
segment (trimmed capture) for each marker part and a `text` segment for
each plain part.  The source renders a text part by splitting it on
newlines into `<br/>`-separated fragments; the segment keeps the raw part,
line breaks included. -/
def parseMessage (text : String) : List ContentSegment :=
  (splitParts (text.length + 1) [] text.toList).map fun p =>
    match p with
    | Sum.inl t => ContentSegment.text t
    | Sum.inr c => ContentSegment.citation (trimString c)

/-- One conversation entry as stored in the `messages` state of
`src/App.jsx`.  `id` is the `nanoid()` value (opaque; modelled as `Nat`),
`text` the JavaScript value stored in the `text` property (a string in
every branch of the source except a normalizer result, hence `Json`),
`isStatus` the placeholder flag, `timestamp` the creation time. -/
structure Message where
  id : Nat
  sender : String
  text : Json
  isStatus : Bool
  timestamp : Nat

/-- Derived error predicate of the renderer:
`const isError = msg.text.startsWith("A technical issue occurred")`.
Calling `startsWith` presumes a string `text`; every message the source
stores with a non-normalized text is a string literal, and a non-string
normalizer result is not an error message, so non-strings map to
`false`. -/
def isError (m : Message) : Bool :=
  match m.text with
  | Json.str s => startsWithString s "A technical issue occurred"
  | _ => false

/-- Outcome of one `fetch` of the status endpoint followed by
`response.json()`: either a decoded body carrying `data.status` and the
optional `data.response`, or a thrown transport/parse error. -/
inductive FetchResult where
  | ok (status : String) (response : Option Json)
  | fail

/-- The mutable locals of the polling loop of `pollJobStatus`:
`jobStatus`, `finalResponse` and `attempts`. -/
structure PollState where
  jobStatus : String
  finalResponse : Json
  attempts : Nat

/-- Fixed placeholder text appended when polling starts. -/
def analyzingText : String := "Analyzing with HMRC & ACCA sources..."

/-- Fixed generic-failure text, the initial value of `finalResponse`,
which survives to the terminal message unless a COMPLETE status
overwrites it. -/
def genericFailureText : String := "A technical error occurred. Please try again."

/-- The attempt budget of the polling loop (`const maxAttempts = 15`). -/
def maxAttempts : Nat := 15

/-- One iteration of the polling loop body: increment `attempts`, perform
the fetch (its outcome given by `r`), and run the `try`/`catch`:

```js
attempts += 1;
try {
  const response = await fetch(...);
  const data = await response.json();
  jobStatus = data.status;
  if (jobStatus === "COMPLETE") {
    finalResponse = resolveResponseText(data.response);
  }
} catch {
  jobStatus = "ERROR";
}
```

An absent `data.response` on a COMPLETE status makes
`resolveResponseText(undefined)` throw inside the `try`, which the
`catch` turns into `jobStatus = "ERROR"`; likewise a `null` payload. -/
def pollIteration (st : PollState) (r : FetchResult) : PollState :=
  match r with
  | FetchResult.fail => ⟨"ERROR", st.finalResponse, st.attempts + 1⟩
  | FetchResult.ok status resp =>
    if status = "COMPLETE" then
      match resp with
      | none => ⟨"ERROR", st.finalResponse, st.attempts + 1⟩
      | some raw =>
        match resolveResponseText raw with
        | Except.ok v => ⟨status, v, st.attempts + 1⟩
        | Except.error _ => ⟨"ERROR", st.finalResponse, st.attempts + 1⟩
    else ⟨status, st.finalResponse, st.attempts + 1⟩

/-- The polling loop

```js
while ((jobStatus === "PENDING" || jobStatus === "PROCESSING") && attempts < maxAttempts)
```

as fuel-indexed recursion.  `oracle n` is the outcome of the status query
performed on the iteration that raises `attempts` from `n` to `n + 1`;
since each iteration performs exactly one query, the final `attempts`
equals the number of status queries performed.  The condition bounds the
iterations by `maxAttempts - attempts`, so with that much fuel the
recursion is exactly the `while` loop. -/
def pollLoop (oracle : Nat → FetchResult) (fuel : Nat) (st : PollState) : PollState :=
  match fuel with
  | 0 => st
  | fuel' + 1 =>
    if (st.jobStatus = "PENDING" ∨ st.jobStatus = "PROCESSING") ∧ st.attempts < maxAttempts then
      pollLoop oracle fuel' (pollIteration st (oracle st.attempts))
    else st

/-- The status-placeholder replacement performed after the loop:

```js
setMessages((msgs) => [
  ...msgs.filter((m) => m.id !== thinkingId),
  { id: nanoid(), sender: "assistant", text: finalResponse, timestamp: new Date() },
]);
```

with `finalMsg` the freshly built terminal message. -/
def replaceStatus (thinkingId : Nat) (finalMsg : Message) (msgs : List Message) : List Message :=
  msgs.filter (fun m => m.id != thinkingId) ++ [finalMsg]

/-- Result of a completed `pollJobStatus` run: the number of status
queries performed and the final conversation. -/
structure PollOutcome where
  queries : Nat
  messages : List Message

/-- The poller `pollJobStatus` of `src/App.jsx`, run to quiescence on a
starting conversation `msgs`: append the placeholder status message, run
the polling loop against the query `oracle`, then replace the placeholder
with the terminal message holding `finalResponse`.  The fresh `nanoid()`
values and `new Date()` times are passed in as `thinkingId`, `finalId`,
`ts1`, `ts2`. -/
def pollJobStatus (oracle : Nat → FetchResult) (thinkingId finalId : Nat)
    (ts1 ts2 : Nat) (msgs : List Message) : PollOutcome :=
  let withPlaceholder := msgs ++ [⟨thinkingId, "assistant", Json.str analyzingText, true, ts1⟩]
  let st := pollLoop oracle maxAttempts ⟨"PENDING", Json.str genericFailureText, 0⟩
  ⟨st.attempts, replaceStatus thinkingId ⟨finalId, "assistant", st.finalResponse, false, ts2⟩ withPlaceholder⟩

/-- The component state of the chat view that `handleSend` reads and
writes: the conversation, the input box and the `isTyping`
awaiting-response flag. -/
structure AppState where
  messages : List Message
  input : String
  isTyping : Bool

/-- Outcome of the submission request `fetch(API_BASE_URL + "/ask", ...)`
followed by body decoding, as seen by `handleSend`: HTTP 202 with a
`jobId` body, any other status with a decoded body whose optional
`detail` field feeds the thrown error, or a thrown transport/parse error
with its message. -/
inductive AskResult where
  | accepted (jobId : String)
  | rejected (detail : Option String)
  | transportFail (errMessage : String)

/-- The expression `data.detail || "Unexpected response"`: a missing or
falsy (empty) `detail` falls back to the default. -/
def detailOrDefault : Option String → String
  | some d => if d = "" then "Unexpected response" else d
  | none => "Unexpected response"

/-- The submission entry point `handleSend` of `src/App.jsx`, run to
quiescence.  The guard `if (!input.trim() || isTyping) return;` makes the
call a no-op when the trimmed input is empty or a response is still
awaited.  Otherwise the user message is appended, the input cleared and
`isTyping` set; then, per the submission outcome `ask`:

* `accepted`: `pollJobStatus` runs against `oracle` (it clears `isTyping`
  and performs the placeholder replacement);
* `rejected`: `throw new Error(data.detail || "Unexpected response")` is
  caught locally, `isTyping` cleared, and the assistant message
  `"A technical issue occurred: " + err.message` appended;
* `transportFail`: the thrown error is caught by the same handler.

The function is total: every branch returns a state, modelling that no
failure propagates to the caller.  `userId`, `thinkingId`, `finalId` are
the `nanoid()` values and `ts` the clock. -/
def handleSend (ask : AskResult) (oracle : Nat → FetchResult)
    (userId thinkingId finalId : Nat) (ts : Nat) (st : AppState) : AppState :=
  if trimString st.input = "" ∨ st.isTyping then st
  else
    let userMsg : Message := ⟨userId, "user", Json.str (trimString st.input), false, ts⟩
    let msgs1 := st.messages ++ [userMsg]
    match ask with
    | AskResult.accepted _ =>
      ⟨(pollJobStatus oracle thinkingId finalId ts ts msgs1).messages, "", false⟩
    | AskResult.rejected detail =>
      ⟨msgs1 ++ [⟨finalId, "assistant",
        Json.str ("A technical issue occurred: " ++ detailOrDefault detail), false, ts⟩], "", false⟩
    | AskResult.transportFail m =>
      ⟨msgs1 ++ [⟨finalId, "assistant",
        Json.str ("A technical issue occurred: " ++ m), false, ts⟩], "", false⟩

/-- A status-query outcome that keeps the job in flight: a decoded body
whose `status` is `"PENDING"` or `"PROCESSING"`. -/
def pendingOk (r : FetchResult) : Prop :=
  ∃ s resp, r = FetchResult.ok s resp ∧ (s = "PENDING" ∨ s = "PROCESSING")

/-! ### Helper lemmas -/

/-- Appending anything to a string keeps each of its prefixes a
`startsWith` match. -/
lemma startsWithString_append (p s : String) : startsWithString (p ++ s) p = true := by
  have h : (p ++ s).toList = p.toList ++ s.toList := by
    simp [String.toList]
  simp only [startsWithString, h]
  exact List.isPrefixOf_iff_prefix.mpr (List.prefix_append _ _)

/-- The submission-path error text always matches the renderer's error
prefix, whatever the failure description. -/
lemma startsWithString_issueText (tail : String) :
    startsWithString ("A technical issue occurred: " ++ tail) "A technical issue occurred" = true := by
  have hlit : ("A technical issue occurred" ++ ": " : String) = "A technical issue occurred: " := rfl
  have h : "A technical issue occurred: " ++ tail =
      "A technical issue occurred" ++ (": " ++ tail) := by
    rw [← String.append_assoc, hlit]
  rw [h, startsWithString_append]

/-- Filtering a message id out twice is the same as filtering it once. -/
lemma filter_id_idem (tid : Nat) (msgs : List Message) :
    (msgs.filter (fun m => m.id != tid)).filter (fun m => m.id != tid) =
      msgs.filter (fun m => m.id != tid) := by
  induction msgs with
  | nil => rfl
  | cons m rest ih =>
    by_cases h : m.id = tid
    · simp [List.filter_cons, h, ih]
    · simp [List.filter_cons, h, ih]

/-- Replacement of a placeholder that is the last message of a
conversation whose other entries have different ids: the placeholder is
removed and the terminal message appended. -/
lemma replaceStatus_fresh (msgs : List Message) (tid : Nat) (finalMsg ph : Message)
    (hfresh : ∀ m ∈ msgs, m.id ≠ tid) (hph : ph.id = tid) :
    replaceStatus tid finalMsg (msgs ++ [ph]) = msgs ++ [finalMsg] := by
  simp only [replaceStatus, List.filter_append]
  have h1 : List.filter (fun m => m.id != tid) [ph] = [] := by
    simp [List.filter, hph]
  have h2 : msgs.filter (fun m => m.id != tid) = msgs :=
    List.filter_eq_self.mpr (fun m hm => by simpa using hfresh m hm)
  rw [h1, h2, List.append_nil]

/-- Unfolding one iteration of the polling loop when the `while` condition
holds, with the state given componentwise so the fetched attempt index is
syntactic. -/
lemma pollLoop_succ_eval (oracle : Nat → FetchResult) (fuel : Nat) (js : String)
    (fr : Json) (a : Nat)
    (hcond : (js = "PENDING" ∨ js = "PROCESSING") ∧ a < maxAttempts) :
    pollLoop oracle (fuel + 1) ⟨js, fr, a⟩ =
      pollLoop oracle fuel (pollIteration ⟨js, fr, a⟩ (oracle a)) := by
  simp [pollLoop, hcond]

/-- The polling loop is inert once the `while` condition fails. -/
lemma pollLoop_stop (oracle : Nat → FetchResult) (fuel : Nat) (st : PollState)
    (h : ¬((st.jobStatus = "PENDING" ∨ st.jobStatus = "PROCESSING") ∧
        st.attempts < maxAttempts)) :
    pollLoop oracle fuel st = st := by
  cases fuel with
  | zero => rfl
  | succ fuel' => simp [pollLoop, h]

/-- Running the loop through `k` consecutive in-flight (`PENDING` or
`PROCESSING`) query outcomes advances `attempts` by `k`, leaves
`finalResponse` untouched, and leaves the job status in flight. -/
lemma pollLoop_pendingSteps (oracle : Nat → FetchResult) :
    ∀ (k fuel : Nat) (st : PollState),
      (st.jobStatus = "PENDING" ∨ st.jobStatus = "PROCESSING") →
      (∀ n, st.attempts ≤ n → n < st.attempts + k → pendingOk (oracle n)) →
      st.attempts + k ≤ maxAttempts →
      ∃ s, (s = "PENDING" ∨ s = "PROCESSING") ∧
        pollLoop oracle (fuel + k) st =
          pollLoop oracle fuel ⟨s, st.finalResponse, st.attempts + k⟩ := by
  intro k
  induction k with
  | zero =>
    intro fuel st hst _ _
    exact ⟨st.jobStatus, hst, by simp⟩
  | succ k ih =>
    intro fuel st hst hor hle
    obtain ⟨js, fr, a⟩ := st
    have hst0 : js = "PENDING" ∨ js = "PROCESSING" := hst
    have hor0 : ∀ n, a ≤ n → n < a + (k + 1) → pendingOk (oracle n) := hor
    have hle0 : a + (k + 1) ≤ maxAttempts := hle
    obtain ⟨s₁, resp, hoq, hs₁⟩ := hor0 a (le_refl a) (by omega)
    have hcond : (js = "PENDING" ∨ js = "PROCESSING") ∧ a < maxAttempts := ⟨hst0, by omega⟩
    have hstep : pollLoop oracle (fuel + (k + 1)) ⟨js, fr, a⟩ =
        pollLoop oracle (fuel + k) (pollIteration ⟨js, fr, a⟩ (oracle a)) := by
      have he : fuel + (k + 1) = (fuel + k) + 1 := by omega
      rw [he]
      exact pollLoop_succ_eval oracle (fuel + k) js fr a hcond
    have hit : pollIteration ⟨js, fr, a⟩ (oracle a) = ⟨s₁, fr, a + 1⟩ := by
      rw [hoq]
      rcases hs₁ with h | h <;> simp [pollIteration, h]
    have hor' : ∀ n, a + 1 ≤ n → n < a + 1 + k → pendingOk (oracle n) :=
      fun n h1 h2 => hor0 n (by omega) (by omega)
    have hle' : a + 1 + k ≤ maxAttempts := by omega
    obtain ⟨s, hs, hrest⟩ := ih fuel ⟨s₁, fr, a + 1⟩ hs₁ hor' hle'
    refine ⟨s, hs, ?_⟩
    rw [hstep, hit]
    have ha : a + 1 + k = a + (k + 1) := by omega
    calc pollLoop oracle (fuel + k) ⟨s₁, fr, a + 1⟩
        = pollLoop oracle fuel ⟨s, fr, a + 1 + k⟩ := hrest
      _ = pollLoop oracle fuel ⟨s, fr, a + (k + 1)⟩ := by rw [ha]

/-- A run whose first `k` status queries are in flight and whose
`(k+1)`-st iteration drives the loop to a terminal, non-COMPLETE status
performs exactly `k + 1` queries and replaces the placeholder with the
generic-failure message. -/
lemma pollJobStatus_stopsAt (oracle : Nat → FetchResult) (tid fid ts1 ts2 : Nat)
    (msgs : List Message) (k : Nat) (endStatus : String)
    (hk : k < maxAttempts)
    (hpend : ∀ n, n < k → pendingOk (oracle n))
    (hterm : ¬(endStatus = "PENDING" ∨ endStatus = "PROCESSING"))
    (hstep : ∀ (fr : Json) (s : String), (s = "PENDING" ∨ s = "PROCESSING") →
      pollIteration ⟨s, fr, k⟩ (oracle k) = ⟨endStatus, fr, k + 1⟩)
    (hfresh : ∀ m ∈ msgs, m.id ≠ tid) :
    (pollJobStatus oracle tid fid ts1 ts2 msgs).queries = k + 1 ∧
    (pollJobStatus oracle tid fid ts1 ts2 msgs).messages =
      msgs ++ [⟨fid, "assistant", Json.str genericFailureText, false, ts2⟩] := by
  have hpre : ∀ n, (0 : Nat) ≤ n → n < 0 + k → pendingOk (oracle n) :=
    fun n _ h2 => hpend n (by omega)
  obtain ⟨s, hs, heq⟩ := pollLoop_pendingSteps oracle k (maxAttempts - k)
    ⟨"PENDING", Json.str genericFailureText, 0⟩ (Or.inl rfl) hpre
    (show (0 : Nat) + k ≤ maxAttempts by omega)
  have heq' : pollLoop oracle ((maxAttempts - k) + k)
        ⟨"PENDING", Json.str genericFailureText, 0⟩ =
      pollLoop oracle (maxAttempts - k) ⟨s, Json.str genericFailureText, 0 + k⟩ := heq
  have hfuelsplit : maxAttempts = (maxAttempts - k) + k := by omega
  have hloop : pollLoop oracle maxAttempts ⟨"PENDING", Json.str genericFailureText, 0⟩ =
      ⟨endStatus, Json.str genericFailureText, k + 1⟩ := by
    rw [hfuelsplit, heq']
    rw [Nat.zero_add]
    have hsplit2 : maxAttempts - k = (maxAttempts - k - 1) + 1 := by omega
    rw [hsplit2, pollLoop_succ_eval oracle (maxAttempts - k - 1) s
      (Json.str genericFailureText) k ⟨hs, hk⟩]
    rw [hstep (Json.str genericFailureText) s hs]
    exact pollLoop_stop oracle _ _ (by simp [hterm])
  constructor
  · simp [pollJobStatus, hloop]
  · simp only [pollJobStatus, hloop]
    exact replaceStatus_fresh msgs tid _ _ hfresh rfl

/-- A run all of whose status queries report an in-flight status performs
exactly `maxAttempts` queries and replaces the placeholder with the
generic-failure message. -/
lemma pollJobStatus_alwaysPending (oracle : Nat → FetchResult) (tid fid ts1 ts2 : Nat)
    (msgs : List Message)
    (hpend : ∀ n, pendingOk (oracle n))
    (hfresh : ∀ m ∈ msgs, m.id ≠ tid) :
    (pollJobStatus oracle tid fid ts1 ts2 msgs).queries = maxAttempts ∧
    (pollJobStatus oracle tid fid ts1 ts2 msgs).messages =
      msgs ++ [⟨fid, "assistant", Json.str genericFailureText, false, ts2⟩] := by
  obtain ⟨s, hs, heq⟩ := pollLoop_pendingSteps oracle maxAttempts 0
    ⟨"PENDING", Json.str genericFailureText, 0⟩ (Or.inl rfl)
    (fun n h1 h2 => hpend n) (show (0 : Nat) + maxAttempts ≤ maxAttempts by omega)
  have hloop : pollLoop oracle maxAttempts ⟨"PENDING", Json.str genericFailureText, 0⟩ =
      ⟨s, Json.str genericFailureText, maxAttempts⟩ := by
    calc pollLoop oracle maxAttempts ⟨"PENDING", Json.str genericFailureText, 0⟩
        = pollLoop oracle (0 + maxAttempts) ⟨"PENDING", Json.str genericFailureText, 0⟩ := by
          rw [Nat.zero_add]
      _ = pollLoop oracle 0 ⟨s, Json.str genericFailureText, 0 + maxAttempts⟩ := heq
      _ = pollLoop oracle 0 ⟨s, Json.str genericFailureText, maxAttempts⟩ := by
          rw [Nat.zero_add]
      _ = ⟨s, Json.str genericFailureText, maxAttempts⟩ := rfl
  constructor
  · simp [pollJobStatus, hloop]
  · simp only [pollJobStatus, hloop]
    exact replaceStatus_fresh msgs tid _ _ hfresh rfl

/-! ### Claim theorems -/

/-- C1, counterexample: the bare-string payload `""` is a successfully
decoded payload, and `resolveResponseText` returns it unchanged — the
empty string — refuting the claim that every bare-string payload yields a
non-empty result. -/
theorem resolveResponseText_emptyBareString_cex :
    resolveResponseText (Json.str "") = Except.ok (Json.str "") ∧ ("" : String).length = 0 :=
  ⟨rfl, rfl⟩

/-- C1, amended: for every bare-string payload the normalizer returns the
string itself without throwing (so the result is non-empty exactly when
the payload is); for an object carrying a direct non-empty `text` string
it returns that string; and for an object of unknown shape (no `text`
field) it returns the serialized form of the whole payload, which is
never empty.  No case throws. -/
theorem resolveResponseText_shapes_total :
    (∀ s : String, s ≠ "" → resolveResponseText (Json.str s) = Except.ok (Json.str s)) ∧
    (∀ (fields : List (String × Json)) (t : String),
        getField fields "text" = some (Json.str t) → t ≠ "" →
        resolveResponseText (Json.obj fields) = Except.ok (Json.str t)) ∧
    (∀ fields : List (String × Json), getField fields "text" = none →
        resolveResponseText (Json.obj fields) =
          Except.ok (Json.str (stringify (Json.obj fields))) ∧
        stringify (Json.obj fields) ≠ "") := by
  refine ⟨fun s _ => rfl, fun fields t hget ht => ?_, fun fields hget => ⟨?_, ?_⟩⟩
  · simp [resolveResponseText, jsTextField, hget, jsTruthy, ht]
  · simp [resolveResponseText, jsTextField, hget]
  · have hobj : stringify (Json.obj fields) =
        "\x7b" ++ stringifyObj fields ++ "\x7d" := rfl
    rw [hobj]
    intro hcontra
    have hlen := congrArg String.length hcontra
    rw [String.length_append, String.length_append] at hlen
    have h1 : ("\x7b" : String).length = 1 := rfl
    have h2 : ("\x7d" : String).length = 1 := rfl
    have h3 : ("" : String).length = 0 := rfl
    rw [h1, h2, h3] at hlen
    omega

/-- C1, witness for the amended theorem: one instance of each of the
three payload shapes. -/
theorem resolveResponseText_shapes_total_witness :
    resolveResponseText (Json.str "hi") = Except.ok (Json.str "hi") ∧
    resolveResponseText (Json.obj [("text", Json.str "Yes")]) = Except.ok (Json.str "Yes") ∧
    (resolveResponseText (Json.obj [("status", Json.str "COMPLETE")]) =
        Except.ok (Json.str (stringify (Json.obj [("status", Json.str "COMPLETE")]))) ∧
      stringify (Json.obj [("status", Json.str "COMPLETE")]) ≠ "") :=
  ⟨resolveResponseText_shapes_total.1 "hi" (by decide),
   resolveResponseText_shapes_total.2.1 [("text", Json.str "Yes")] "Yes" rfl (by decide),
   resolveResponseText_shapes_total.2.2 [("status", Json.str "COMPLETE")] rfl⟩

/-- C4: on `"A [source: X] B [source: Y] C"` the parser produces exactly
the alternating sequence of text and citation segments in marker
occurrence order, with the citation text trimmed. -/
theorem parseMessage_orderedSegments :
    parseMessage "A [source: X] B [source: Y] C" =
      [ContentSegment.text "A ", ContentSegment.citation "X", ContentSegment.text " B ",
       ContentSegment.citation "Y", ContentSegment.text " C"] := by
  decide

/-- C6, counterexample: replacing the placeholder (id 0) twice — each
invocation building a fresh terminal message, as the source's `nanoid()`
does — does not equal replacing it once: the second invocation appends a
duplicate terminal message. -/
theorem replaceStatus_twice_duplicates_cex :
    replaceStatus 0 ⟨2, "assistant", Json.str "done", false, 0⟩
        (replaceStatus 0 ⟨1, "assistant", Json.str "done", false, 0⟩
          [⟨0, "assistant", Json.str analyzingText, true, 0⟩]) ≠
      replaceStatus 0 ⟨1, "assistant", Json.str "done", false, 0⟩
        [⟨0, "assistant", Json.str analyzingText, true, 0⟩] :=
  fun h => absurd (congrArg List.length h) (by decide)

/-- C6, amended: the second invocation of the replacement for the same
placeholder id is not a no-op; it removes nothing further (the filter
step is idempotent) but appends a second terminal message, so the result
is the once-replaced conversation with the new terminal message
appended. -/
theorem replaceStatus_secondInvocation_appends (msgs : List Message) (tid : Nat)
    (m1 m2 : Message) (h1 : m1.id ≠ tid) :
    replaceStatus tid m2 (replaceStatus tid m1 msgs) =
      replaceStatus tid m1 msgs ++ [m2] := by
  simp only [replaceStatus, List.filter_append]
  rw [filter_id_idem]
  have hm1 : List.filter (fun m => m.id != tid) [m1] = [m1] := by
    simp [List.filter_cons, h1]
  rw [hm1]

/-- C6, witness for the amended theorem. -/
theorem replaceStatus_secondInvocation_appends_witness :
    replaceStatus 0 ⟨2, "assistant", Json.str "ok", false, 0⟩
        (replaceStatus 0 ⟨1, "assistant", Json.str "ok", false, 0⟩
          [⟨0, "assistant", Json.str analyzingText, true, 0⟩]) =
      replaceStatus 0 ⟨1, "assistant", Json.str "ok", false, 0⟩
          [⟨0, "assistant", Json.str analyzingText, true, 0⟩] ++
        [⟨2, "assistant", Json.str "ok", false, 0⟩] :=
  replaceStatus_secondInvocation_appends
    [⟨0, "assistant", Json.str analyzingText, true, 0⟩] 0 _ _ (by decide)

/-- C7: a call to `handleSend` whose trimmed input is empty or issued
while `isTyping` is set is a no-op — the state (message list included) is
returned unchanged and the submission outcome and polling oracle are
never consulted (the conclusion holds for every `ask` and `oracle`). -/
theorem handleSend_guard_noop (ask : AskResult) (oracle : Nat → FetchResult)
    (userId thinkingId finalId ts : Nat) (st : AppState)
    (h : trimString st.input = "" ∨ st.isTyping = true) :
    handleSend ask oracle userId thinkingId finalId ts st = st := by
  unfold handleSend
  rcases h with h | h
  · rw [if_pos (Or.inl h)]
  · rw [if_pos (Or.inr h)]

/-- C7, witness: re-entrant call (flag set) and whitespace-only input. -/
theorem handleSend_guard_noop_witness :
    handleSend (AskResult.accepted "job-1") (fun _ => FetchResult.fail) 0 1 2 0
        ⟨[], "   ", false⟩ = ⟨[], "   ", false⟩ ∧
    handleSend (AskResult.accepted "job-1") (fun _ => FetchResult.fail) 0 1 2 0
        ⟨[], "query", true⟩ = ⟨[], "query", true⟩ :=
  ⟨handleSend_guard_noop _ _ 0 1 2 0 _ (Or.inl rfl),
   handleSend_guard_noop _ _ 0 1 2 0 _ (Or.inr rfl)⟩

/-- C8, counterexample: for the payload `{data: {text: "hello"}}` — the
text-bearing field nested under one level of wrapping — the normalizer
returns the serialized form of the whole wrapper, not the inner string
`"hello"`. -/
theorem resolveResponseText_nested_serialized_cex :
    resolveResponseText (Json.obj [("data", Json.obj [("text", Json.str "hello")])]) =
      Except.ok (Json.str (stringify
        (Json.obj [("data", Json.obj [("text", Json.str "hello")])]))) ∧
    stringify (Json.obj [("data", Json.obj [("text", Json.str "hello")])]) ≠ "hello" :=
  ⟨rfl, by decide⟩

/-- C8, amended: the normalizer extracts only a top-level truthy `text`
field.  A payload whose text-bearing field is nested under wrapping (no
top-level `text` key) is returned as the serialized form of the whole
wrapper, and a payload that is itself a further-encoded string is
returned as-is with no additional decode step. -/
theorem resolveResponseText_topLevelOnly (fields : List (String × Json)) (k : String)
    (w : Json) (t : String)
    (htop : getField fields "text" = none)
    (hwrap : getField fields k = some w)
    (hinner : jsTextField w = some (Json.str t)) :
    resolveResponseText (Json.obj fields) =
      Except.ok (Json.str (stringify (Json.obj fields))) ∧
    ∀ s : String, resolveResponseText (Json.str s) = Except.ok (Json.str s) := by
  exact ⟨by simp [resolveResponseText, jsTextField, htop], fun s => rfl⟩

/-- C8, witness for the amended theorem. -/
theorem resolveResponseText_topLevelOnly_witness :
    resolveResponseText (Json.obj [("data", Json.obj [("text", Json.str "hi")])]) =
      Except.ok (Json.str (stringify
        (Json.obj [("data", Json.obj [("text", Json.str "hi")])]))) ∧
    ∀ s : String, resolveResponseText (Json.str s) = Except.ok (Json.str s) :=
  resolveResponseText_topLevelOnly [("data", Json.obj [("text", Json.str "hi")])]
    "data" (Json.obj [("text", Json.str "hi")]) "hi" rfl rfl rfl

/-- C2: for a status sequence `PENDING, PENDING, COMPLETE` under the
source's `maxAttempts = 15`, the poller performs exactly 3 status queries
and the terminal message appended in place of the placeholder carries the
normalized `response` of the third query. -/
theorem pollJobStatus_pendingPendingComplete
    (oracle : Nat → FetchResult) (thinkingId finalId ts1 ts2 : Nat) (msgs : List Message)
    (r0 r1 : Option Json) (resp v : Json)
    (h0 : oracle 0 = FetchResult.ok "PENDING" r0)
    (h1 : oracle 1 = FetchResult.ok "PENDING" r1)
    (h2 : oracle 2 = FetchResult.ok "COMPLETE" (some resp))
    (hres : resolveResponseText resp = Except.ok v)
    (hfresh : ∀ m ∈ msgs, m.id ≠ thinkingId) :
    (pollJobStatus oracle thinkingId finalId ts1 ts2 msgs).queries = 3 ∧
    (pollJobStatus oracle thinkingId finalId ts1 ts2 msgs).messages =
      msgs ++ [⟨finalId, "assistant", v, false, ts2⟩] := by
  have hloop : pollLoop oracle maxAttempts ⟨"PENDING", Json.str genericFailureText, 0⟩ =
      ⟨"COMPLETE", v, 3⟩ := by
    rw [show maxAttempts = 14 + 1 from rfl,
      pollLoop_succ_eval oracle 14 "PENDING" (Json.str genericFailureText) 0
        ⟨Or.inl rfl, by decide⟩, h0]
    have i0 : pollIteration ⟨"PENDING", Json.str genericFailureText, 0⟩
        (FetchResult.ok "PENDING" r0) = ⟨"PENDING", Json.str genericFailureText, 1⟩ := by
      simp [pollIteration]
    rw [i0, show (14 : Nat) = 13 + 1 from rfl,
      pollLoop_succ_eval oracle 13 "PENDING" (Json.str genericFailureText) 1
        ⟨Or.inl rfl, by decide⟩, h1]
    have i1 : pollIteration ⟨"PENDING", Json.str genericFailureText, 1⟩
        (FetchResult.ok "PENDING" r1) = ⟨"PENDING", Json.str genericFailureText, 2⟩ := by
      simp [pollIteration]
    rw [i1, show (13 : Nat) = 12 + 1 from rfl,
      pollLoop_succ_eval oracle 12 "PENDING" (Json.str genericFailureText) 2
        ⟨Or.inl rfl, by decide⟩, h2]
    have i2 : pollIteration ⟨"PENDING", Json.str genericFailureText, 2⟩
        (FetchResult.ok "COMPLETE" (some resp)) = ⟨"COMPLETE", v, 3⟩ := by
      simp [pollIteration, hres]
    rw [i2]
    exact pollLoop_stop oracle 12 _ (fun hcontra => by rcases hcontra.1 with h | h <;> simp at h)
  constructor
  · simp [pollJobStatus, hloop]
  · simp only [pollJobStatus, hloop]
    exact replaceStatus_fresh msgs thinkingId _ _ hfresh rfl

/-- C2, witness: a concrete oracle answering PENDING, PENDING, then
COMPLETE with a string payload. -/
theorem pollJobStatus_pendingPendingComplete_witness :
    (pollJobStatus
        (fun n => if n < 2 then FetchResult.ok "PENDING" none
          else FetchResult.ok "COMPLETE" (some (Json.str "The answer")))
        1 2 5 6 []).queries = 3 ∧
    (pollJobStatus
        (fun n => if n < 2 then FetchResult.ok "PENDING" none
          else FetchResult.ok "COMPLETE" (some (Json.str "The answer")))
        1 2 5 6 []).messages = [⟨2, "assistant", Json.str "The answer", false, 6⟩] :=
  pollJobStatus_pendingPendingComplete _ 1 2 5 6 [] none none
    (Json.str "The answer") (Json.str "The answer") rfl rfl rfl rfl
    (fun m hm => absurd hm (List.not_mem_nil m))

/-- C3: if every status query reports an in-flight status (PENDING or
PROCESSING), the poller performs at most `maxAttempts` status queries —
in fact exactly `maxAttempts` — and then performs the placeholder
replacement exactly once, producing the fixed generic-failure message; the
run is over afterwards, so no further query occurs. -/
theorem pollJobStatus_neverComplete_timeout
    (oracle : Nat → FetchResult) (thinkingId finalId ts1 ts2 : Nat) (msgs : List Message)
    (hpend : ∀ n, pendingOk (oracle n))
    (hfresh : ∀ m ∈ msgs, m.id ≠ thinkingId) :
    (pollJobStatus oracle thinkingId finalId ts1 ts2 msgs).queries ≤ maxAttempts ∧
    (pollJobStatus oracle thinkingId finalId ts1 ts2 msgs).queries = maxAttempts ∧
    (pollJobStatus oracle thinkingId finalId ts1 ts2 msgs).messages =
      msgs ++ [⟨finalId, "assistant", Json.str genericFailureText, false, ts2⟩] := by
  obtain ⟨hq, hm⟩ := pollJobStatus_alwaysPending oracle thinkingId finalId ts1 ts2 msgs
    hpend hfresh
  exact ⟨le_of_eq hq, hq, hm⟩

/-- C3, witness: a job that reports PROCESSING forever. -/
theorem pollJobStatus_neverComplete_timeout_witness :
    (pollJobStatus (fun _ => FetchResult.ok "PROCESSING" none) 1 2 5 6 []).queries ≤
      maxAttempts ∧
    (pollJobStatus (fun _ => FetchResult.ok "PROCESSING" none) 1 2 5 6 []).queries =
      maxAttempts ∧
    (pollJobStatus (fun _ => FetchResult.ok "PROCESSING" none) 1 2 5 6 []).messages =
      [⟨2, "assistant", Json.str genericFailureText, false, 6⟩] :=
  pollJobStatus_neverComplete_timeout _ 1 2 5 6 []
    (fun n => ⟨"PROCESSING", none, rfl, Or.inr rfl⟩)
    (fun m hm => absurd hm (List.not_mem_nil m))

/-- C9: a transport or decode failure at any attempt `k` (after in-flight
statuses only) terminates the polling immediately — exactly `k + 1`
queries are performed — and the placeholder is replaced exactly once with
the fixed generic-failure text, the same text as the timeout outcome. -/
theorem pollJobStatus_transportError_terminates
    (oracle : Nat → FetchResult) (thinkingId finalId ts1 ts2 : Nat) (msgs : List Message)
    (k : Nat) (hk : k < maxAttempts)
    (hpend : ∀ n, n < k → pendingOk (oracle n))
    (hfail : oracle k = FetchResult.fail)
    (hfresh : ∀ m ∈ msgs, m.id ≠ thinkingId) :
    (pollJobStatus oracle thinkingId finalId ts1 ts2 msgs).queries = k + 1 ∧
    (pollJobStatus oracle thinkingId finalId ts1 ts2 msgs).messages =
      msgs ++ [⟨finalId, "assistant", Json.str genericFailureText, false, ts2⟩] :=
  pollJobStatus_stopsAt oracle thinkingId finalId ts1 ts2 msgs k "ERROR" hk hpend
    (by decide) (fun fr s hs => by rw [hfail]; simp [pollIteration]) hfresh

/-- C9, witness: the very first status fetch throws. -/
theorem pollJobStatus_transportError_terminates_witness :
    (pollJobStatus (fun _ => FetchResult.fail) 1 2 5 6 []).queries = 1 ∧
    (pollJobStatus (fun _ => FetchResult.fail) 1 2 5 6 []).messages =
      [⟨2, "assistant", Json.str genericFailureText, false, 6⟩] :=
  pollJobStatus_transportError_terminates _ 1 2 5 6 [] 0 (by decide)
    (fun n hn => absurd hn (Nat.not_lt_zero n)) rfl
    (fun m hm => absurd hm (List.not_mem_nil m))

/-- C10: a status query (at any attempt `k`, after in-flight statuses
only) reporting a status other than PENDING, PROCESSING or COMPLETE stops
the polling — exactly `k + 1` queries — and the placeholder is replaced
with the same fixed generic-failure text as the timeout outcome; the
`response` field accompanying the non-COMPLETE status plays no role (the
conclusion holds for every `resp` and never mentions it). -/
theorem pollJobStatus_unknownStatus_failure
    (oracle : Nat → FetchResult) (thinkingId finalId ts1 ts2 : Nat) (msgs : List Message)
    (k : Nat) (badStatus : String) (resp : Option Json)
    (hk : k < maxAttempts)
    (hpend : ∀ n, n < k → pendingOk (oracle n))
    (hbad : oracle k = FetchResult.ok badStatus resp)
    (hnp : badStatus ≠ "PENDING") (hnpr : badStatus ≠ "PROCESSING")
    (hnc : badStatus ≠ "COMPLETE")
    (hfresh : ∀ m ∈ msgs, m.id ≠ thinkingId) :
    (pollJobStatus oracle thinkingId finalId ts1 ts2 msgs).queries = k + 1 ∧
    (pollJobStatus oracle thinkingId finalId ts1 ts2 msgs).messages =
      msgs ++ [⟨finalId, "assistant", Json.str genericFailureText, false, ts2⟩] :=
  pollJobStatus_stopsAt oracle thinkingId finalId ts1 ts2 msgs k badStatus hk hpend
    (fun h => h.elim hnp hnpr)
    (fun fr s hs => by rw [hbad]; simp [pollIteration, hnc]) hfresh

/-- C10, witness: the first status query reports `ERROR` together with a
`response` payload, which is ignored. -/
theorem pollJobStatus_unknownStatus_failure_witness :
    (pollJobStatus (fun _ => FetchResult.ok "ERROR" (some (Json.str "ignored")))
        1 2 5 6 []).queries = 1 ∧
    (pollJobStatus (fun _ => FetchResult.ok "ERROR" (some (Json.str "ignored")))
        1 2 5 6 []).messages =
      [⟨2, "assistant", Json.str genericFailureText, false, 6⟩] :=
  pollJobStatus_unknownStatus_failure _ 1 2 5 6 [] 0 "ERROR" (some (Json.str "ignored"))
    (by decide) (fun n hn => absurd hn (Nat.not_lt_zero n)) rfl
    (by decide) (by decide) (by decide)
    (fun m hm => absurd hm (List.not_mem_nil m))

/-- C5, counterexample: a JobTimeout run (status forever PENDING) ends in
the terminal assistant message carrying the poll-path failure text
`"A technical error occurred. Please try again."`, and the derived
`isError` predicate — which tests for the prefix
`"A technical issue occurred"` — is `false` on that message.  The four
error kinds therefore do not share one error-text convention recognized
by `isError`. -/
theorem handleSend_timeoutMessage_notFlagged_cex :
    (handleSend (AskResult.accepted "job-1") (fun _ => FetchResult.ok "PENDING" none)
        0 1 2 7 ⟨[], "q", false⟩).messages =
      [⟨0, "user", Json.str "q", false, 7⟩,
       ⟨2, "assistant", Json.str genericFailureText, false, 7⟩] ∧
    isError ⟨2, "assistant", Json.str genericFailureText, false, 7⟩ = false := by
  exact ⟨rfl, by decide⟩

/-- C5, amended: each of the four error kinds is handled locally and ends
in a terminal assistant message (the model of `handleSend` is a total
function, so nothing propagates to its caller), but the error texts
follow two different conventions.  Submission-path errors
(SubmissionRejected, TransportFailure at submission) carry the prefix
`"A technical issue occurred"` and are recognized by `isError`;
polling-path errors (JobTimeout, JobFailed) carry the distinct fixed text
`"A technical error occurred. Please try again."`, on which `isError` is
`false`. -/
theorem handleSend_errorText_policy
    (st : AppState) (userId thinkingId finalId ts : Nat) (jobId : String)
    (hinput : trimString st.input ≠ "") (htyping : st.isTyping = false)
    (hfresh : ∀ m ∈ st.messages, m.id ≠ thinkingId) (huser : userId ≠ thinkingId)
    (detail errMsg : String) (hdetail : detail ≠ "")
    (oracleT oracleF : Nat → FetchResult)
    (hT : ∀ n, pendingOk (oracleT n))
    (respF : Option Json) (hF : oracleF 0 = FetchResult.ok "ERROR" respF) :
    ((handleSend (AskResult.rejected (some detail)) oracleT
          userId thinkingId finalId ts st).messages =
        st.messages ++ [⟨userId, "user", Json.str (trimString st.input), false, ts⟩,
          ⟨finalId, "assistant", Json.str ("A technical issue occurred: " ++ detail),
            false, ts⟩] ∧
      isError ⟨finalId, "assistant", Json.str ("A technical issue occurred: " ++ detail),
        false, ts⟩ = true) ∧
    ((handleSend (AskResult.transportFail errMsg) oracleT
          userId thinkingId finalId ts st).messages =
        st.messages ++ [⟨userId, "user", Json.str (trimString st.input), false, ts⟩,
          ⟨finalId, "assistant", Json.str ("A technical issue occurred: " ++ errMsg),
            false, ts⟩] ∧
      isError ⟨finalId, "assistant", Json.str ("A technical issue occurred: " ++ errMsg),
        false, ts⟩ = true) ∧
    ((handleSend (AskResult.accepted jobId) oracleT
          userId thinkingId finalId ts st).messages =
        st.messages ++ [⟨userId, "user", Json.str (trimString st.input), false, ts⟩,
          ⟨finalId, "assistant", Json.str genericFailureText, false, ts⟩] ∧
      isError ⟨finalId, "assistant", Json.str genericFailureText, false, ts⟩ = false) ∧
    ((handleSend (AskResult.accepted jobId) oracleF
          userId thinkingId finalId ts st).messages =
        st.messages ++ [⟨userId, "user", Json.str (trimString st.input), false, ts⟩,
          ⟨finalId, "assistant", Json.str genericFailureText, false, ts⟩] ∧
      isError ⟨finalId, "assistant", Json.str genericFailureText, false, ts⟩ = false) := by
  have hguard : ¬(trimString st.input = "" ∨ st.isTyping = true) := by
    simp [hinput, htyping]
  have hfresh1 : ∀ m ∈ st.messages ++
      [(⟨userId, "user", Json.str (trimString st.input), false, ts⟩ : Message)],
      m.id ≠ thinkingId := by
    intro m hm
    rcases List.mem_append.mp hm with h | h
    · exact hfresh m h
    · rcases List.mem_singleton.mp h with rfl
      exact huser
  have hGeneric : isError ⟨finalId, "assistant", Json.str genericFailureText,
      false, ts⟩ = false := by
    show startsWithString genericFailureText "A technical issue occurred" = false
    decide
  refine ⟨⟨?_, ?_⟩, ⟨?_, ?_⟩, ⟨?_, ?_⟩, ⟨?_, ?_⟩⟩
  · simp only [handleSend, if_neg hguard]
    simp [detailOrDefault, hdetail]
  · show startsWithString ("A technical issue occurred: " ++ detail)
      "A technical issue occurred" = true
    exact startsWithString_issueText detail
  · simp only [handleSend, if_neg hguard]
    simp
  · show startsWithString ("A technical issue occurred: " ++ errMsg)
      "A technical issue occurred" = true
    exact startsWithString_issueText errMsg
  · simp only [handleSend, if_neg hguard]
    have := (pollJobStatus_alwaysPending oracleT thinkingId finalId ts ts
      (st.messages ++ [⟨userId, "user", Json.str (trimString st.input), false, ts⟩])
      hT hfresh1).2
    rw [this, List.append_assoc]
    rfl
  · exact hGeneric
  · simp only [handleSend, if_neg hguard]
    have := (pollJobStatus_stopsAt oracleF thinkingId finalId ts ts
      (st.messages ++ [⟨userId, "user", Json.str (trimString st.input), false, ts⟩])
      0 "ERROR" (by decide) (fun n hn => absurd hn (Nat.not_lt_zero n))
      (by decide) (fun fr s hs => by rw [hF]; simp [pollIteration]) hfresh1).2
    rw [this, List.append_assoc]
    rfl
  · exact hGeneric

/-- C5, witness for the amended theorem: one concrete run of each of the
four error kinds. -/
theorem handleSend_errorText_policy_witness :
    ((handleSend (AskResult.rejected (some "Bad request"))
          (fun _ => FetchResult.ok "PENDING" none) 0 1 2 3 ⟨[], "q", false⟩).messages =
        [⟨0, "user", Json.str "q", false, 3⟩,
          ⟨2, "assistant", Json.str "A technical issue occurred: Bad request",
            false, 3⟩] ∧
      isError ⟨2, "assistant", Json.str "A technical issue occurred: Bad request",
        false, 3⟩ = true) ∧
    ((handleSend (AskResult.transportFail "NetworkError")
          (fun _ => FetchResult.ok "PENDING" none) 0 1 2 3 ⟨[], "q", false⟩).messages =
        [⟨0, "user", Json.str "q", false, 3⟩,
          ⟨2, "assistant", Json.str "A technical issue occurred: NetworkError",
            false, 3⟩] ∧
      isError ⟨2, "assistant", Json.str "A technical issue occurred: NetworkError",
        false, 3⟩ = true) ∧
    ((handleSend (AskResult.accepted "job-9")
          (fun _ => FetchResult.ok "PENDING" none) 0 1 2 3 ⟨[], "q", false⟩).messages =
        [⟨0, "user", Json.str "q", false, 3⟩,
          ⟨2, "assistant", Json.str genericFailureText, false, 3⟩] ∧
      isError ⟨2, "assistant", Json.str genericFailureText, false, 3⟩ = false) ∧
    ((handleSend (AskResult.accepted "job-9")
          (fun _ => FetchResult.ok "ERROR" none) 0 1 2 3 ⟨[], "q", false⟩).messages =
        [⟨0, "user", Json.str "q", false, 3⟩,
          ⟨2, "assistant", Json.str genericFailureText, false, 3⟩] ∧
      isError ⟨2, "assistant", Json.str genericFailureText, false, 3⟩ = false) :=
  handleSend_errorText_policy ⟨[], "q", false⟩ 0 1 2 3 "job-9" (by decide) rfl
    (fun m hm => absurd hm (List.not_mem_nil m)) (by decide)
    "Bad request" "NetworkError" (by decide)
    (fun _ => FetchResult.ok "PENDING" none) (fun _ => FetchResult.ok "ERROR" none)
    (fun n => ⟨"PENDING", none, rfl, Or.inl rfl⟩) none rfl
